import Mathlib

/-!
Shallow embedding of the RFID attendance tool
(`src/ArduinoUno-RFIDController/absensi.py`) and proofs of the spec's
claims about its serial-ingestion-to-persistence pipeline.

Python strings are modelled as lists of code points (`List Nat`).  The
Python string predicates (`str.isalnum`, `str.upper`, `str.strip`) are
embedded exactly on the ASCII block together with the non-ASCII code
points exercised by the theorems below (U+0390, U+0399, U+0301, U+0308,
U+00C9, U+00E9), whose Unicode Character Database data — including the
one-to-many special uppercase mapping of U+0390 — is carried verbatim
into the definitions.  On every code point in this domain the model
computes exactly what Python computes.
-/

namespace Absensi

/-- A Python string, as its list of character code points. -/
abbrev PyStr := List Nat

/-- Code points of a Lean string literal, used to write concrete inputs. -/
def chars (s : String) : PyStr := s.data.map Char.toNat

/-- Python `str.isalnum` per character: ASCII decimal digits, ASCII
letters, and the alphabetic non-ASCII code points of this development's
domain — U+0390 (GREEK SMALL LETTER IOTA WITH DIALYTIKA AND TONOS),
U+0399 (GREEK CAPITAL LETTER IOTA), U+00E9 (LATIN SMALL LETTER E WITH
ACUTE), U+00C9 (LATIN CAPITAL LETTER E WITH ACUTE).  The combining
marks U+0301 and U+0308 are not alphanumeric, exactly as in Python. -/
def pyIsAlnum (c : Nat) : Bool :=
  decide ((48 ≤ c ∧ c ≤ 57) ∨ (65 ≤ c ∧ c ≤ 90) ∨ (97 ≤ c ∧ c ≤ 122)
    ∨ c = 0x390 ∨ c = 0x399 ∨ c = 0xE9 ∨ c = 0xC9)

/-- Python `str.upper` per character, as the list of code points the
character maps to: ASCII lowercase letters shift by 32; U+0390 has the
one-to-many special uppercase mapping U+0399 U+0308 U+0301; U+00E9
uppercases to U+00C9; every other code point of the domain (uppercase
letters, digits, punctuation, the combining marks) maps to itself. -/
def pyUpperChars (c : Nat) : List Nat :=
  if 97 ≤ c ∧ c ≤ 122 then [c - 32]
  else if c = 0x390 then [0x399, 0x308, 0x301]
  else if c = 0xE9 then [0xC9]
  else [c]

/-- Python `str.upper` on a string: each character is replaced by its
uppercase mapping, which may be longer than one character. -/
def pyUpper (s : PyStr) : PyStr := s.flatMap pyUpperChars

/-- Python `str.isspace` on one ASCII character (tab, newline, vertical
tab, form feed, carriage return, space). -/
def pyIsSpace (c : Nat) : Bool := decide (c = 32 ∨ (9 ≤ c ∧ c ≤ 13))

/-- Python `str.strip`: drop leading and trailing whitespace. -/
def pyStrip (s : PyStr) : PyStr :=
  ((s.dropWhile pyIsSpace).reverse.dropWhile pyIsSpace).reverse

/-- `normalize_uid` (absensi.py line 95): keep the alphanumeric
characters of the input, then uppercase the result. -/
def normalize_uid (text : PyStr) : PyStr :=
  pyUpper (text.filter pyIsAlnum)

/-- A string made of ASCII characters only (code points below 128). -/
def isAsciiStr (s : PyStr) : Bool := s.all (fun c => decide (c < 128))

/-- Uppercasing restricted to one ASCII character: what `pyUpperChars`
computes on code points below 128, as a one-to-one map. -/
def asciiUpperChar (c : Nat) : Nat :=
  if 97 ≤ c ∧ c ≤ 122 then c - 32 else c

end Absensi

namespace Absensi

/-- One row of `users.csv`: a registered user (profile). -/
structure User where
  uid : PyStr
  nama : PyStr
  umur : PyStr
deriving DecidableEq

/-- One record row of `absensi.csv`: an attendance log entry. -/
structure LogRec where
  uid : PyStr
  nama : PyStr
  waktu : PyStr
deriving DecidableEq

/-- One physical line of the attendance log file: the CSV header line or
a record line. -/
inductive LogEntry where
  | header : LogEntry
  | record : LogRec → LogEntry
deriving DecidableEq

/-- The attendance log file, as its list of lines. -/
abbrev LogFile := List LogEntry

/-- `CsvStore.save_users` (lines 64-70): the rows written to
`users.csv` — each uid is uppercased on the way out, name and age are
written as they are. -/
def save_users (users : List User) : List User :=
  users.map (fun u => ⟨pyUpper u.uid, u.nama, u.umur⟩)

/-- `CsvStore.load_users` (lines 54-62): the users read back from the
rows of `users.csv` — each uid is stripped and uppercased on the way
in. -/
def load_users (rows : List User) : List User :=
  rows.map (fun r => ⟨pyUpper (pyStrip r.uid), r.nama, r.umur⟩)

/-- `CsvStore.append_log` (lines 72-82): the file is opened in append
mode; when the file is empty (`f.tell() == 0`) the header line is
written first, then the record row, with the uid uppercased. -/
def append_log (file : LogFile) (uid nama waktu : PyStr) : LogFile :=
  let row : LogRec := ⟨pyUpper uid, nama, waktu⟩
  if file.isEmpty then [LogEntry.header, LogEntry.record row]
  else file ++ [LogEntry.record row]

/-- The record rows of a log file, header lines skipped (what
`csv.DictReader` yields). -/
def logRecords (file : LogFile) : List LogRec :=
  file.filterMap (fun e => match e with
    | LogEntry.header => none
    | LogEntry.record r => some r)

/-- `CsvStore.load_logs` (lines 84-92): returns the record rows; when
`limit` is truthy (present and nonzero) only the last `limit` of them
(`logs[-limit:]`). -/
def load_logs (logs : List LogRec) (limit : Option Nat) : List LogRec :=
  match limit with
  | some n => if n ≠ 0 then logs.drop (logs.length - n) else logs
  | none => logs

/-- `SerialReader.run` loop body (lines 118-122): one decoded line is
stripped; if non-empty it is normalized, and the normalized uid is
published to the queue only if it, too, is non-empty. -/
def serial_ingest (line : PyStr) : Option PyStr :=
  let l := pyStrip line
  if l.isEmpty then none
  else
    let uid := normalize_uid l
    if uid.isEmpty then none else some uid

/-- `App.find_user_by_uid` (lines 335-340): first user whose
normalized uid equals the normalized argument. -/
def find_user_by_uid (users : List User) (uid : PyStr) : Option User :=
  users.find? (fun u => normalize_uid u.uid == normalize_uid uid)

/-- `App.on_uid_received` (lines 320-332) acting on
(log file, registration-form uid, bell flag): a known uid appends one
log record, an unknown uid is staged into the form and the bell is
rung. -/
def on_uid_received (users : List User) (file : LogFile)
    (formUid : PyStr) (uid waktu : PyStr) : LogFile × PyStr × Bool :=
  match find_user_by_uid users uid with
  | some u => (append_log file uid u.nama waktu, formUid, false)
  | none => (file, uid, true)

/-- The in-memory profile list produced inside `App.form_save`
(lines 363-374): when some user matches the normalized form uid, every
matching user's name and age are overwritten in place; otherwise a new
user is appended. -/
def form_save_users (users : List User) (uid nama umur : PyStr) :
    List User :=
  match find_user_by_uid users uid with
  | some _ =>
      users.map (fun u =>
        if normalize_uid u.uid == uid then ⟨u.uid, nama, umur⟩ else u)
  | none => users ++ [⟨uid, nama, umur⟩]

/-- `App.form_save` (lines 356-377) acting on
(in-memory users, users.csv rows).  The form uid is normalized, name
and age stripped; empty uid or name aborts with a validation error.
Otherwise the in-memory list is updated (all users matching the uid) or
extended first, and only then written out with `save_users`; `ioOk`
models whether that write succeeds — on failure the file keeps its old
rows while the exception propagates, after the in-memory mutation. -/
def form_save (users : List User) (fileRows : List User)
    (formUid formNama formUmur : PyStr) (ioOk : Bool) :
    List User × List User :=
  let uid := normalize_uid formUid
  let nama := pyStrip formNama
  let umur := pyStrip formUmur
  if uid.isEmpty || nama.isEmpty then (users, fileRows)
  else
    (form_save_users users uid nama umur,
     if ioOk then save_users (form_save_users users uid nama umur)
     else fileRows)

/-- `App.delete_user` (lines 379-389) acting on
(in-memory users, users.csv rows): after confirmation, every user whose
normalized uid equals the selected row's normalized uid is removed, and
the list is written out (`ioOk` as in `form_save`). -/
def delete_user (users : List User) (fileRows : List User)
    (selUid : PyStr) (confirm ioOk : Bool) : List User × List User :=
  let uid := normalize_uid selUid
  if confirm then
    let users' := users.filter (fun u => !(normalize_uid u.uid == uid))
    (users', if ioOk then save_users users' else fileRows)
  else (users, fileRows)

/-- Profile-set invariant: identifiers are pairwise distinct under
canonicalization. -/
def uidsUnique (users : List User) : Prop :=
  (users.map (fun u => normalize_uid u.uid)).Nodup

/-- An uppercase alphanumeric ASCII character: digit or uppercase
letter. -/
def isUpperAlnumChar (c : Nat) : Bool :=
  decide ((48 ≤ c ∧ c ≤ 57) ∨ (65 ≤ c ∧ c ≤ 90))

/-- A well-formed log file: the header line followed by record lines
only. -/
def wellFormedLog (file : LogFile) : Bool :=
  match file with
  | LogEntry.header :: rest =>
      rest.all (fun e => match e with
        | LogEntry.header => false
        | LogEntry.record _ => true)
  | _ => false

end Absensi

namespace Absensi

/-! ### Character-level lemmas -/

theorem pyIsSpace_not_alnum (c : Nat) (h : pyIsSpace c = true) :
    pyIsAlnum c = false := by
  simp only [pyIsSpace, decide_eq_true_eq] at h
  simp only [pyIsAlnum, decide_eq_false_iff_not]
  omega

theorem pyUpperChars_ascii (c : Nat) (h : c < 128) :
    pyUpperChars c = [asciiUpperChar c] := by
  simp only [pyUpperChars, asciiUpperChar]
  by_cases hl : 97 ≤ c ∧ c ≤ 122
  · rw [if_pos hl, if_pos hl]
  · rw [if_neg hl, if_neg (by omega : ¬c = 0x390),
      if_neg (by omega : ¬c = 0xE9), if_neg hl]

theorem asciiUpperChar_lt (c : Nat) (h : c < 128) :
    asciiUpperChar c < 128 := by
  simp only [asciiUpperChar]
  split <;> omega

theorem asciiUpperChar_idem (c : Nat) :
    asciiUpperChar (asciiUpperChar c) = asciiUpperChar c := by
  simp only [asciiUpperChar]
  split <;> (try split) <;> omega

theorem pyIsAlnum_asciiUpperChar (c : Nat) :
    pyIsAlnum (asciiUpperChar c) = pyIsAlnum c := by
  simp only [pyIsAlnum, asciiUpperChar, decide_eq_decide]
  split <;> omega

theorem pyIsAlnum_ascii_upper_alnum (c : Nat) (hc : c < 128)
    (h : pyIsAlnum c = true) :
    isUpperAlnumChar (asciiUpperChar c) = true := by
  simp only [pyIsAlnum, decide_eq_true_eq] at h
  simp only [isUpperAlnumChar, asciiUpperChar, decide_eq_true_eq]
  split <;> omega

/-! ### Normalizer lemmas -/

theorem pyUpper_ascii (s : PyStr) (h : ∀ c ∈ s, c < 128) :
    pyUpper s = s.map asciiUpperChar := by
  induction s with
  | nil => rfl
  | cons c t ih =>
    rw [pyUpper, List.flatMap_cons,
      pyUpperChars_ascii c (h c (List.mem_cons_self c t)), List.map_cons]
    have ht := ih (fun d hd => h d (List.mem_cons_of_mem c hd))
    rw [pyUpper] at ht
    rw [ht]
    rfl

theorem mem_filter_ascii (x : PyStr) (h : ∀ c ∈ x, c < 128) :
    ∀ c ∈ x.filter pyIsAlnum, c < 128 :=
  fun c hc => h c (List.mem_filter.mp hc).1

theorem normalize_uid_ascii_eq (x : PyStr) (h : ∀ c ∈ x, c < 128) :
    normalize_uid x = (x.filter pyIsAlnum).map asciiUpperChar := by
  rw [normalize_uid, pyUpper_ascii _ (mem_filter_ascii x h)]

theorem normalize_uid_ascii_lt (x : PyStr) (h : ∀ c ∈ x, c < 128) :
    ∀ c ∈ normalize_uid x, c < 128 := by
  rw [normalize_uid_ascii_eq x h]
  intro c hc
  obtain ⟨d, hd, rfl⟩ := List.mem_map.mp hc
  exact asciiUpperChar_lt d (mem_filter_ascii x h d hd)

theorem normalize_uid_pyUpper_ascii (s : PyStr) (h : ∀ c ∈ s, c < 128) :
    normalize_uid (pyUpper s) = normalize_uid s := by
  rw [pyUpper_ascii s h, normalize_uid, List.filter_map,
    show (pyIsAlnum ∘ asciiUpperChar) = pyIsAlnum from
      funext pyIsAlnum_asciiUpperChar,
    pyUpper_ascii _ (fun c hc => by
      obtain ⟨d, hd, rfl⟩ := List.mem_map.mp hc
      exact asciiUpperChar_lt d (mem_filter_ascii s h d hd)),
    List.map_map, normalize_uid_ascii_eq s h]
  apply List.map_congr_left
  intro c _
  exact asciiUpperChar_idem c

theorem mem_pyStrip (s : PyStr) (c : Nat) (hc : c ∈ pyStrip s) : c ∈ s := by
  rw [pyStrip, List.mem_reverse] at hc
  have h1 := List.Sublist.mem hc (List.dropWhile_sublist _)
  rw [List.mem_reverse] at h1
  exact List.Sublist.mem h1 (List.dropWhile_sublist _)

theorem filter_pyIsAlnum_dropWhile (s : PyStr) :
    (s.dropWhile pyIsSpace).filter pyIsAlnum = s.filter pyIsAlnum := by
  induction s with
  | nil => rfl
  | cons c t ih =>
    by_cases h : pyIsSpace c = true
    · rw [List.dropWhile_cons, if_pos h, ih, List.filter_cons,
        if_neg (by simp [pyIsSpace_not_alnum c h])]
    · rw [List.dropWhile_cons, if_neg h]

theorem filter_pyIsAlnum_pyStrip (s : PyStr) :
    (pyStrip s).filter pyIsAlnum = s.filter pyIsAlnum := by
  rw [pyStrip, List.filter_reverse, filter_pyIsAlnum_dropWhile,
    List.filter_reverse, filter_pyIsAlnum_dropWhile, List.reverse_reverse]

theorem normalize_uid_pyStrip (s : PyStr) :
    normalize_uid (pyStrip s) = normalize_uid s := by
  rw [normalize_uid, filter_pyIsAlnum_pyStrip, normalize_uid]

/-- C1 fails on the code: Python uppercases 'ΐ' (U+0390) to the
three-character string U+0399 U+0308 U+0301, and a second
normalization pass removes the two combining marks, which are not
alphanumeric — the normalizer is not idempotent at "ΐ". -/
theorem normalize_uid_not_idempotent :
    normalize_uid (normalize_uid (chars "ΐ")) ≠ normalize_uid (chars "ΐ") := by
  decide

/-- C1 amended: on strings of ASCII characters — the domain of the
serial protocol's tag identifiers — the identifier normalizer is
idempotent: `normalize_uid (normalize_uid x) = normalize_uid x`.
Over full Unicode it is not (see `normalize_uid_not_idempotent`). -/
theorem normalize_uid_idem_ascii (x : PyStr) (h : isAsciiStr x = true) :
    normalize_uid (normalize_uid x) = normalize_uid x := by
  rw [isAsciiStr, List.all_eq_true] at h
  have hx : ∀ c ∈ x, c < 128 := fun c hc => by simpa using h c hc
  have h2 : ∀ c ∈ normalize_uid x, c < 128 := normalize_uid_ascii_lt x hx
  rw [normalize_uid_ascii_eq _ h2, normalize_uid_ascii_eq x hx,
    List.filter_map,
    show (pyIsAlnum ∘ asciiUpperChar) = pyIsAlnum from
      funext pyIsAlnum_asciiUpperChar,
    List.filter_filter]
  simp only [Bool.and_self]
  rw [List.map_map]
  apply List.map_congr_left
  intro c _
  exact asciiUpperChar_idem c

/-- Concrete instance of `normalize_uid_idem_ascii` at the ASCII string
" ab-12 cd ". -/
theorem normalize_uid_idem_ascii_witness :
    isAsciiStr (chars " ab-12 cd ") = true ∧
    normalize_uid (normalize_uid (chars " ab-12 cd "))
      = normalize_uid (chars " ab-12 cd ") :=
  ⟨by decide, normalize_uid_idem_ascii (chars " ab-12 cd ") (by decide)⟩

/-- C2 fails on the code: `normalize_uid "ΐ"` is U+0399 U+0308 U+0301,
which contains the combining mark U+0308 — not an alphanumeric
character at all — and `normalize_uid "é"` is "É", an uppercase letter
produced by Unicode, not ASCII, casing. -/
theorem normalize_uid_output_not_alnum :
    (0x308 ∈ normalize_uid (chars "ΐ") ∧ pyIsAlnum 0x308 = false) ∧
    (normalize_uid (chars "ΐ")).all isUpperAlnumChar = false ∧
    (normalize_uid (chars "é")).all isUpperAlnumChar = false := by
  decide

/-- C2 amended: for ASCII input strings, every character of
`normalize_uid x` is an ASCII digit or ASCII uppercase letter.  For
non-ASCII input the output can contain non-alphanumeric combining
marks and non-ASCII uppercase letters
(see `normalize_uid_output_not_alnum`). -/
theorem normalize_uid_all_upper_alnum_ascii (x : PyStr)
    (h : isAsciiStr x = true) :
    (normalize_uid x).all isUpperAlnumChar = true := by
  rw [isAsciiStr, List.all_eq_true] at h
  have hx : ∀ c ∈ x, c < 128 := fun c hc => by simpa using h c hc
  rw [normalize_uid_ascii_eq x hx, List.all_eq_true]
  intro c hc
  obtain ⟨d, hd, rfl⟩ := List.mem_map.mp hc
  have hd' := List.mem_filter.mp hd
  exact pyIsAlnum_ascii_upper_alnum d (hx d hd'.1) hd'.2

/-- Concrete instance of `normalize_uid_all_upper_alnum_ascii` at the
ASCII string "ab12cd". -/
theorem normalize_uid_all_upper_alnum_ascii_witness :
    isAsciiStr (chars "ab12cd") = true ∧
    (normalize_uid (chars "ab12cd")).all isUpperAlnumChar = true :=
  ⟨by decide, normalize_uid_all_upper_alnum_ascii (chars "ab12cd") (by decide)⟩

/-! ### Pipeline theorems -/

/-- C3: with the profile `{uid := "AB12CD", nama := "Alice"}`
registered, the raw scanned text `" ab-12 cd \n"` is normalized by the
serial worker to `"AB12CD"`, matches the profile, and exactly one
attendance record with identifier `"AB12CD"` and name `"Alice"` is
appended to the log. -/
theorem known_identifier_scenario (waktu : PyStr) :
    serial_ingest (chars " ab-12 cd \x0a") = some (chars "AB12CD") ∧
    on_uid_received [⟨chars "AB12CD", chars "Alice", []⟩]
        [LogEntry.header] [] (chars "AB12CD") waktu
      = ([LogEntry.header,
          LogEntry.record ⟨chars "AB12CD", chars "Alice", waktu⟩],
         [], false) :=
  ⟨by decide, rfl⟩

/-- C4: every non-empty identifier drained from the queue produces
exactly one of two outcomes: when a profile with a matching canonical
identifier exists, exactly one attendance record is appended and
nothing is staged; when none matches, the log file is unchanged, the
identifier is staged into the registration form, and the bell is
rung. -/
theorem on_uid_received_total (users : List User) (file : LogFile)
    (formUid uid waktu : PyStr) (_huid : uid ≠ []) :
    (∃ u, find_user_by_uid users uid = some u ∧
      on_uid_received users file formUid uid waktu
        = (append_log file uid u.nama waktu, formUid, false) ∧
      logRecords (append_log file uid u.nama waktu)
        = logRecords file ++ [⟨pyUpper uid, u.nama, waktu⟩]) ∨
    (find_user_by_uid users uid = none ∧
      on_uid_received users file formUid uid waktu = (file, uid, true)) := by
  cases hf : find_user_by_uid users uid with
  | some u =>
    left
    refine ⟨u, rfl, ?_, ?_⟩
    · show on_uid_received users file formUid uid waktu = _
      unfold on_uid_received
      rw [hf]
    · cases file with
      | nil => rfl
      | cons e t =>
        show logRecords ((e :: t) ++ [LogEntry.record _]) = _
        unfold logRecords
        rw [List.filterMap_append]
        rfl
  | none =>
    right
    refine ⟨rfl, ?_⟩
    unfold on_uid_received
    rw [hf]

/-- Concrete instance of `on_uid_received_total`: identifier "AB12CD"
drained with an empty profile list is staged, not logged. -/
theorem on_uid_received_total_witness :
    (∃ u, find_user_by_uid [] (chars "AB12CD") = some u ∧
      on_uid_received [] [] [] (chars "AB12CD") []
        = (append_log [] (chars "AB12CD") u.nama [], [], false) ∧
      logRecords (append_log [] (chars "AB12CD") u.nama [])
        = logRecords [] ++ [⟨pyUpper (chars "AB12CD"), u.nama, []⟩]) ∨
    (find_user_by_uid [] (chars "AB12CD") = none ∧
      on_uid_received [] [] [] (chars "AB12CD") []
        = ([], chars "AB12CD", true)) :=
  on_uid_received_total [] [] [] (chars "AB12CD") [] (by decide)

/-- C9: when the serial worker publishes a value for a raw line, the
line was non-empty after stripping, the published value equals
`normalize_uid` of the line, and it is non-empty. -/
theorem serial_ingest_sound (line u : PyStr)
    (h : serial_ingest line = some u) :
    pyStrip line ≠ [] ∧ u = normalize_uid line ∧ u ≠ [] := by
  simp only [serial_ingest] at h
  split at h
  · exact absurd h (by simp)
  · split at h
    · exact absurd h (by simp)
    · rename_i h1 h2
      injection h with h3
      subst h3
      rw [List.isEmpty_iff] at h1 h2
      rw [normalize_uid_pyStrip] at h2 ⊢
      exact ⟨h1, rfl, h2⟩

/-- Concrete instance of `serial_ingest_sound` on the raw line
`" ab-12 cd \n"`, published as `"AB12CD"`. -/
theorem serial_ingest_sound_witness :
    pyStrip (chars " ab-12 cd \x0a") ≠ [] ∧
    chars "AB12CD" = normalize_uid (chars " ab-12 cd \x0a") ∧
    chars "AB12CD" ≠ [] :=
  serial_ingest_sound (chars " ab-12 cd \x0a") (chars "AB12CD") (by decide)

/-- C10: appending to an empty log file writes the header first and
then the record, yielding a well-formed file; appending to a non-empty
file appends exactly the record line and no header. -/
theorem append_log_header_spec (file : LogFile) (uid nama waktu : PyStr)
    (h : file ≠ []) :
    wellFormedLog (append_log [] uid nama waktu) = true ∧
    append_log [] uid nama waktu
      = [LogEntry.header, LogEntry.record ⟨pyUpper uid, nama, waktu⟩] ∧
    append_log file uid nama waktu
      = file ++ [LogEntry.record ⟨pyUpper uid, nama, waktu⟩] := by
  refine ⟨rfl, rfl, ?_⟩
  cases file with
  | nil => exact absurd rfl h
  | cons e t => rfl

/-- Concrete instance of `append_log_header_spec`: appending to a file
holding only the header line. -/
theorem append_log_header_spec_witness :
    wellFormedLog (append_log [] (chars "AB12CD") (chars "Alice") (chars "t"))
      = true ∧
    append_log [] (chars "AB12CD") (chars "Alice") (chars "t")
      = [LogEntry.header, LogEntry.record
          ⟨pyUpper (chars "AB12CD"), chars "Alice", chars "t"⟩] ∧
    append_log [LogEntry.header] (chars "AB12CD") (chars "Alice") (chars "t")
      = [LogEntry.header] ++ [LogEntry.record
          ⟨pyUpper (chars "AB12CD"), chars "Alice", chars "t"⟩] :=
  append_log_header_spec [LogEntry.header] (chars "AB12CD") (chars "Alice")
    (chars "t") (by decide)

/-! ### Store theorems -/

/-- C6 fails on the code: a profile whose uid is "ΐ" is written out as
its Unicode uppercase U+0399 U+0308 U+0301 and read back with canonical
identifier "Ι" (the combining marks are dropped by the normalizer),
while the original profile's canonical identifier is
U+0399 U+0308 U+0301 — the round trip changes the canonical
identifier. -/
theorem save_load_roundtrip_counterexample :
    (load_users (save_users [⟨chars "ΐ", chars "Alice", []⟩])).map
        (fun u => (normalize_uid u.uid, u.nama, u.umur))
      ≠ [(⟨chars "ΐ", chars "Alice", []⟩ : User)].map
          (fun u => (normalize_uid u.uid, u.nama, u.umur)) := by
  decide

/-- C6 amended: for every profile set whose identifiers are ASCII
strings, saving with `save_users` and loading back with `load_users`
yields an equivalent profile set: position by position the canonical
identifier, name and age are unchanged.  With non-ASCII identifiers
the canonical identifier can change across the round trip
(see `save_load_roundtrip_counterexample`). -/
theorem save_load_roundtrip_ascii (users : List User)
    (h : ∀ u ∈ users, isAsciiStr u.uid = true) :
    (load_users (save_users users)).map
        (fun u => (normalize_uid u.uid, u.nama, u.umur))
      = users.map (fun u => (normalize_uid u.uid, u.nama, u.umur)) := by
  simp only [load_users, save_users, List.map_map]
  apply List.map_congr_left
  intro u hu
  simp only [Function.comp]
  have hx : ∀ c ∈ u.uid, c < 128 := fun c hc => by
    have := (List.all_eq_true.mp (h u hu)) c hc
    simpa using this
  have h1 : ∀ c ∈ pyUpper u.uid, c < 128 := by
    rw [pyUpper_ascii _ hx]
    intro c hc
    obtain ⟨d, hd, rfl⟩ := List.mem_map.mp hc
    exact asciiUpperChar_lt d (hx d hd)
  have h2 : ∀ c ∈ pyStrip (pyUpper u.uid), c < 128 :=
    fun c hc => h1 c (mem_pyStrip _ c hc)
  rw [normalize_uid_pyUpper_ascii _ h2, normalize_uid_pyStrip,
    normalize_uid_pyUpper_ascii _ hx]

/-- Concrete instance of `save_load_roundtrip_ascii` on a one-profile
set with the ASCII identifier "AB12CD". -/
theorem save_load_roundtrip_ascii_witness :
    (load_users (save_users [⟨chars "AB12CD", chars "Alice", []⟩])).map
        (fun u => (normalize_uid u.uid, u.nama, u.umur))
      = [(⟨chars "AB12CD", chars "Alice", []⟩ : User)].map
          (fun u => (normalize_uid u.uid, u.nama, u.umur)) :=
  save_load_roundtrip_ascii [⟨chars "AB12CD", chars "Alice", []⟩]
    (by decide)

/-- C8 holds for a truthy limit but fails at limit 0: Python's
`if limit:` treats 0 as absent, so all records come back instead of the
most recent zero. -/
theorem load_logs_zero_limit_counterexample :
    load_logs [⟨chars "AB12CD", chars "Alice", chars "t"⟩] (some 0) ≠ [] := by
  decide

/-- C8 amended: `load_logs` with no limit returns all records in file
order; with a limit `n ≥ 1` it returns the most recent `min n length`
records, a suffix of the file, in file order; a limit of 0 is falsy in
Python and behaves like no limit, returning all records. -/
theorem load_logs_spec (logs : List LogRec) (n : Nat) (h : 0 < n) :
    load_logs logs none = logs ∧
    load_logs logs (some 0) = logs ∧
    (load_logs logs (some n)).length = min n logs.length ∧
    logs.take (logs.length - n) ++ load_logs logs (some n) = logs := by
  have hn : n ≠ 0 := Nat.pos_iff_ne_zero.mp h
  refine ⟨rfl, rfl, ?_, ?_⟩
  · show (if n ≠ 0 then logs.drop (logs.length - n) else logs).length = _
    rw [if_pos hn, List.length_drop]
    omega
  · show logs.take (logs.length - n)
        ++ (if n ≠ 0 then logs.drop (logs.length - n) else logs) = logs
    rw [if_pos hn]
    exact List.take_append_drop _ _

/-- Concrete instance of `load_logs_spec` on a two-record log with
limit 1. -/
theorem load_logs_spec_witness :
    load_logs [⟨chars "AA", chars "Ana", chars "t1"⟩,
               ⟨chars "BB", chars "Ben", chars "t2"⟩] none
      = [⟨chars "AA", chars "Ana", chars "t1"⟩,
         ⟨chars "BB", chars "Ben", chars "t2"⟩] ∧
    load_logs [⟨chars "AA", chars "Ana", chars "t1"⟩,
               ⟨chars "BB", chars "Ben", chars "t2"⟩] (some 0)
      = [⟨chars "AA", chars "Ana", chars "t1"⟩,
         ⟨chars "BB", chars "Ben", chars "t2"⟩] ∧
    (load_logs [⟨chars "AA", chars "Ana", chars "t1"⟩,
                ⟨chars "BB", chars "Ben", chars "t2"⟩] (some 1)).length
      = min 1 ([⟨chars "AA", chars "Ana", chars "t1"⟩,
                ⟨chars "BB", chars "Ben", chars "t2"⟩] : List LogRec).length ∧
    List.take (([⟨chars "AA", chars "Ana", chars "t1"⟩,
                 ⟨chars "BB", chars "Ben", chars "t2"⟩] : List LogRec).length - 1)
        [⟨chars "AA", chars "Ana", chars "t1"⟩,
         ⟨chars "BB", chars "Ben", chars "t2"⟩]
      ++ load_logs [⟨chars "AA", chars "Ana", chars "t1"⟩,
                    ⟨chars "BB", chars "Ben", chars "t2"⟩] (some 1)
      = [⟨chars "AA", chars "Ana", chars "t1"⟩,
         ⟨chars "BB", chars "Ben", chars "t2"⟩] :=
  load_logs_spec
    [⟨chars "AA", chars "Ana", chars "t1"⟩,
     ⟨chars "BB", chars "Ben", chars "t2"⟩] 1 (by decide)

/-- C5 fails on the code: with an empty profile list and a valid form
("AB", "X"), a failing file write still leaves the new profile in the
in-memory list, because `form_save` mutates the list before calling
`save_users` and never rolls back. -/
theorem form_save_failed_io_mutates_memory :
    (form_save [] [] (chars "AB") (chars "X") [] false).1 ≠ [] := by
  decide

/-- C5 amended: on a failed save the file keeps its previous rows and
the operation aborts, but the in-memory profile list has already been
mutated — it is exactly the list a successful save would have left in
memory. -/
theorem form_save_failed_io_behavior (users fileRows : List User)
    (formUid formNama formUmur : PyStr) :
    (form_save users fileRows formUid formNama formUmur false).2 = fileRows ∧
    (form_save users fileRows formUid formNama formUmur false).1
      = (form_save users fileRows formUid formNama formUmur true).1 := by
  constructor
  · simp only [form_save, apply_ite Prod.snd]
    split <;> rfl
  · simp only [form_save, apply_ite Prod.fst]

/-- First component of `form_save`: the in-memory list after the
operation, independent of the write outcome. -/
theorem form_save_fst (users fileRows : List User)
    (formUid formNama formUmur : PyStr) (ioOk : Bool) :
    (form_save users fileRows formUid formNama formUmur ioOk).1
      = if (normalize_uid formUid).isEmpty || (pyStrip formNama).isEmpty then
          users
        else
          form_save_users users (normalize_uid formUid) (pyStrip formNama)
            (pyStrip formUmur) := by
  simp only [form_save, apply_ite Prod.fst]

/-- First component of `delete_user`: the in-memory list after the
operation. -/
theorem delete_user_fst (users fileRows : List User) (selUid : PyStr)
    (confirm ioOk : Bool) :
    (delete_user users fileRows selUid confirm ioOk).1
      = if confirm then
          users.filter (fun u => !(normalize_uid u.uid == normalize_uid selUid))
        else users := by
  unfold delete_user
  split <;> rfl

/-- C7: starting from a profile list whose identifiers are pairwise
distinct under canonicalization, both `form_save` (add or update) and
`delete_user` leave a list whose identifiers are still pairwise
distinct under canonicalization. -/
theorem crud_preserves_uid_unique (users fileRows : List User)
    (formUid formNama formUmur selUid : PyStr) (confirm ioOk : Bool)
    (h : uidsUnique users) :
    uidsUnique (form_save users fileRows formUid formNama formUmur ioOk).1 ∧
    uidsUnique (delete_user users fileRows selUid confirm ioOk).1 := by
  constructor
  · rw [uidsUnique, form_save_fst]
    split
    · exact h
    · unfold form_save_users
      split
      · rw [List.map_map]
        have hc : ((fun u => normalize_uid u.uid) ∘ fun u =>
            if normalize_uid u.uid == normalize_uid formUid then
              (⟨u.uid, pyStrip formNama, pyStrip formUmur⟩ : User)
            else u) = fun u => normalize_uid u.uid := by
          funext v
          simp only [Function.comp]
          split <;> rfl
        rw [hc]
        exact h
      · rename_i hn
        rw [List.map_append, List.nodup_append]
        refine ⟨h, List.nodup_singleton _, ?_⟩
        intro a ha hb
        simp only [List.map_cons, List.map_nil, List.mem_singleton] at hb
        obtain ⟨v, hv, hva⟩ := List.mem_map.mp ha
        have hfind := List.find?_eq_none.mp hn v hv
        apply hfind
        rw [beq_iff_eq, hva, hb]
  · rw [uidsUnique, delete_user_fst]
    split
    · exact List.Nodup.sublist
        (List.Sublist.map _ (List.filter_sublist users)) h
    · exact h

/-- Concrete instance of `crud_preserves_uid_unique`: a one-profile
list stays duplicate-free after an add and after a delete. -/
theorem crud_preserves_uid_unique_witness :
    uidsUnique (form_save [⟨chars "AB", chars "Alice", []⟩] []
      (chars "CD") (chars "Bob") [] true).1 ∧
    uidsUnique (delete_user [⟨chars "AB", chars "Alice", []⟩] []
      (chars "AB") true true).1 :=
  crud_preserves_uid_unique [⟨chars "AB", chars "Alice", []⟩] []
    (chars "CD") (chars "Bob") [] (chars "AB") true true
    (by unfold uidsUnique; decide)

end Absensi
